import Mathlib

/-!
Verification development for the News_Analyzier repository (`src/main.py`).

The program fetches a news article, extracts its body text with a
prioritized list of CSS-like selector heuristics (BeautifulSoup), and
reports part-of-speech statistics (NLTK tokenizer/tagger, `collections.Counter`)
through a Streamlit page.

The embedding below models:
  * the parsed HTML tree (`Node`/`NodeList`) and the operations of
    `fetch_article`: removal of `script/style/nav/header/footer` subtrees,
    `select_one` for the five selectors, `get_text`, the paragraph fallback,
    and the exception path returning the pair `(None, str(e))`;
  * `analyze_pos`: tokenization and tagging are the external NLTK
    collaborators, passed in as oracle parameters (`tokenizer`, `tagAt`);
    `Counter` is modelled as an association list whose keys are in
    first-insertion order, each mapped to its multiplicity, and
    `Counter.most_common()` as a stable sort by descending count;
  * the module-level UI block: the success/failure discrimination by the
    `isinstance(result, tuple)` test, the emptiness (truthiness) check, the
    `most_common(1)[0][0]` metric, and the per-tag example-word lists.
-/

mutual
/-- Parsed HTML node: a text node, or an element with a tag name, an optional
raw `class` attribute string, and children.  (Mutual with `NodeList` so that
all recursions below are structural and reduce on concrete documents.) -/
inductive Node where
  | text (s : String)
  | elem (tag : String) (classAttr : Option String) (children : NodeList)
deriving Repr
/-- Forest of HTML nodes. -/
inductive NodeList where
  | nil
  | cons (n : Node) (ns : NodeList)
deriving Repr
end

/-- Convenience conversion for writing concrete documents. -/
def NodeList.ofList : List Node → NodeList
  | [] => .nil
  | n :: ns => .cons n (NodeList.ofList ns)

/-- The element kinds removed before extraction:
`soup(['script', 'style', 'nav', 'header', 'footer'])` then `.decompose()`. -/
def killList : List String := ["script", "style", "nav", "header", "footer"]

mutual
/-- Removal of the `killList` subtrees (the `decompose` loop in
`fetch_article`) inside one node. -/
def removeKilled : Node → Node
  | .text s => .text s
  | .elem t c ch => .elem t c (removeKilledList ch)
/-- Removal of the `killList` subtrees from a forest (the `decompose` loop in
`fetch_article`): a killed element disappears with its whole subtree; other
elements keep their (recursively cleaned) children. -/
def removeKilledList : NodeList → NodeList
  | .nil => .nil
  | .cons (.text s) ns => .cons (.text s) (removeKilledList ns)
  | .cons (.elem t c ch) ns =>
    if t ∈ killList then removeKilledList ns
    else .cons (.elem t c (removeKilledList ch)) (removeKilledList ns)
end

/-- Python's `str.strip()`: drop leading and trailing whitespace. -/
def strip (s : String) : String :=
  String.mk (((s.data.dropWhile Char.isWhitespace).reverse.dropWhile
    Char.isWhitespace).reverse)

/-- Splitting a `class` attribute value into its whitespace-separated words
(the accumulator holds the current word reversed). -/
def classWordsAux : List Char → List Char → List String
  | [], acc => if acc.isEmpty then [] else [String.mk acc.reverse]
  | c :: cs, acc =>
    if c.isWhitespace then
      if acc.isEmpty then classWordsAux cs []
      else String.mk acc.reverse :: classWordsAux cs []
    else classWordsAux cs (c :: acc)

/-- Class tokens of an element: the whitespace-separated words of the raw
`class` attribute (BeautifulSoup's multi-valued class list). -/
def classTokens : Option String → List String
  | none => []
  | some s => classWordsAux s.data []

/-- Whether the first character list is a prefix of the second. -/
def subAt : List Char → List Char → Bool
  | [], _ => true
  | _ :: _, [] => false
  | a :: as, b :: bs => a == b && subAt as bs

/-- Whether the first character list occurs contiguously in the second. -/
def hasSub : List Char → List Char → Bool
  | ns, [] => ns.isEmpty
  | ns, h :: hs => subAt ns (h :: hs) || hasSub ns hs

/-- Substring test used by the CSS `[class*="..."]` attribute selector
(per CSS, an empty substring value matches nothing). -/
def substrOf (needle hay : String) : Bool :=
  needle != "" && hasSub needle.data hay.data

/-- The three selector shapes occurring in `fetch_article`'s `selectors` list:
a tag-name selector (`article`), a class selector (`.article-content`),
and a class-attribute substring selector (`[class*="article"]`). -/
inductive Sel where
  | tagIs (t : String)
  | classIs (c : String)
  | classSubstr (s : String)

/-- Whether an element node matches a selector (text nodes never match). -/
def matchesSel (sel : Sel) : Node → Bool
  | .text _ => false
  | .elem tag cls _ =>
    match sel with
    | .tagIs t => tag == t
    | .classIs c => (classTokens cls).contains c
    | .classSubstr s =>
      match cls with
      | none => false
      | some a => substrOf s a

/-- The `selectors` list of `fetch_article`, in source order. -/
def selList : List Sel :=
  [.tagIs "article", .classIs "article-content", .classIs "story-content",
   .classSubstr "article", .classSubstr "content"]

mutual
/-- First matching element within one subtree, the root before its
descendants (the document-order search of `soup.select_one`). -/
def selectOne (sel : Sel) : Node → Option Node
  | .text _ => none
  | .elem t c ch =>
    if matchesSel sel (.elem t c ch) then some (.elem t c ch)
    else selectOneList sel ch
/-- `soup.select_one(selector)` on a forest: first matching element in
document (pre-order) order. -/
def selectOneList (sel : Sel) : NodeList → Option Node
  | .nil => none
  | .cons n ns =>
    match selectOne sel n with
    | some r => some r
    | none => selectOneList sel ns
end

/-- The `for selector in selectors` loop: try each selector in order on the
whole soup; the first one that yields an element wins and the loop breaks. -/
def firstMatch : List Sel → NodeList → Option Node
  | [], _ => none
  | s :: ss, soup =>
    match selectOneList s soup with
    | some n => some n
    | none => firstMatch ss soup

mutual
/-- All text-node strings of a subtree, in document order
(BeautifulSoup's string stream underlying `get_text`). -/
def nodeTexts : Node → List String
  | .text s => [s]
  | .elem _ _ ch => listTexts ch
/-- All text-node strings of a forest, in document order. -/
def listTexts : NodeList → List String
  | .nil => []
  | .cons n ns => nodeTexts n ++ listTexts ns
end

/-- `content.get_text(separator=' ', strip=True)`: strip each text fragment,
drop the ones that become empty, join the rest with single spaces. -/
def getTextSepStrip (n : Node) : String :=
  String.intercalate " " (((nodeTexts n).map strip).filter (fun w => w ≠ ""))

/-- `p.get_text(strip=True)` (default empty separator): strip each text
fragment, drop the empties, concatenate the rest. -/
def getTextStrip (n : Node) : String :=
  String.join (((nodeTexts n).map strip).filter (fun w => w ≠ ""))

mutual
/-- Every element with tag name `p` inside one node, in document order. -/
def findPsNode : Node → List Node
  | .text _ => []
  | .elem t c ch =>
    (if t == "p" then [Node.elem t c ch] else []) ++ findPsList ch
/-- `soup.find_all('p')`: every element with tag name `p`, in document order. -/
def findPsList : NodeList → List Node
  | .nil => []
  | .cons n ns => findPsNode n ++ findPsList ns
end

/-- The Python value returned by `fetch_article`: a plain string on the
non-exceptional path, the pair `(None, str(e))` on the exceptional path. -/
inductive PyVal where
  | str (s : String)
  | tuple (first : Option String) (second : String)
deriving Repr, DecidableEq

/-- The selector phase of `fetch_article`: `article_text` after the
`for selector in selectors` loop (`''` when no selector matched). -/
def tryContent (soup : NodeList) : String :=
  match firstMatch selList soup with
  | some content => getTextSepStrip content
  | none => ""

/-- The paragraph fallback:
`' '.join([p.get_text(strip=True) for p in paragraphs])`. -/
def fallbackParagraphs (soup : NodeList) : String :=
  String.intercalate " " ((findPsList soup).map getTextStrip)

/-- `fetch_article`.  The HTTP fetch and HTML parse are the external
collaborators: the argument is either the parsed document of a successful
response or, for any exception raised in the `try` block, the exception's
message `str(e)`.  On success the cleaned soup goes through the selector
phase, then the paragraph fallback when that produced the empty string; on
exception the pair `(None, str(e))` is returned. -/
def fetch_article (response : Except String NodeList) : PyVal :=
  match response with
  | .error e => .tuple none e
  | .ok doc =>
    let soup := removeKilledList doc
    let article_text := tryContent soup
    let article_text := if article_text = "" then fallbackParagraphs soup else article_text
    .str article_text

/-- The caller's `isinstance(result, tuple)` test. -/
def isTuple : PyVal → Bool
  | .str _ => false
  | .tuple _ _ => true

/-- `nltk.pos_tag(tokens)`: the external tagger assigns one tag per token; a
token's tag may depend on the whole token sequence and the token's position,
so the tagger oracle gets both.  The result is the ordered list of
`(word, tag)` pairs, one per token. -/
def pos_tag (tagAt : List String → Nat → String) (tokens : List String) :
    List (String × String) :=
  tokens.enum.map (fun p => (p.2, tagAt tokens p.1))

/-- Keys of a Python dict built by iterating a list and inserting each
element: first-insertion (= first-occurrence) order, no duplicates. -/
def keysInOrder : List String → List String
  | [] => []
  | t :: ts => t :: (keysInOrder ts).filter (fun x => x ≠ t)

/-- `collections.Counter(tags)`: a mapping whose keys are the distinct
elements in first-insertion order, each associated with its multiplicity in
the list. -/
def counter (tags : List String) : List (String × Nat) :=
  (keysInOrder tags).map (fun t => (t, tags.count t))

/-- `analyze_pos(text)`: tokenize with the external tokenizer, tag with the
external tagger, and count the tags
(`Counter([tag for word, tag in pos_tags])`). -/
def analyze_pos (tokenizer : String → List String)
    (tagAt : List String → Nat → String) (text : String) :
    List (String × String) × List (String × Nat) :=
  let tokens := tokenizer text
  let pos_tags := pos_tag tagAt tokens
  (pos_tags, counter (pos_tags.map Prod.snd))

/-- Comparison used by `Counter.most_common()`: entry `a` may come before
entry `b` when `a`'s count is at least `b`'s. -/
def countGe (a b : String × Nat) : Prop := b.2 ≤ a.2

instance : DecidableRel countGe := fun _ b => Nat.decLe b.2 _

instance : IsTotal (String × Nat) countGe :=
  ⟨fun a b => (Nat.le_total b.2 a.2).imp id id⟩

instance : IsTrans (String × Nat) countGe :=
  ⟨fun _ _ _ h1 h2 => Nat.le_trans h2 h1⟩

/-- `Counter.most_common()`: the entries sorted by descending count; CPython
implements it with the stable `sorted`, so entries with equal counts keep
their insertion order.  Modelled by the stable `List.insertionSort`. -/
def mostCommon (c : List (String × Nat)) : List (String × Nat) :=
  c.insertionSort countGe

/-- The "Most Common Tag" metric `pos_counts.most_common(1)[0][0]`:
`none` models the `IndexError` raised by `[0]` when the counter is empty. -/
def mostCommonTagMetric (c : List (String × Nat)) : Option String :=
  match mostCommon c with
  | [] => none
  | p :: _ => some p.1

/-- One iteration of the example-collection loop: for the pair `p = (word,
tag)`, ensure `tag` has an entry and append `word` to it when the entry still
has fewer than 5 words.  The dict is modelled as a total function defaulting
to `[]`, matching the `pos_examples.get(tag_name, [])` read. -/
def stepExamples (d : String → List String) (p : String × String) :
    String → List String :=
  fun t => if t = p.2 ∧ (d p.2).length < 5 then d p.2 ++ [p.1] else d t

/-- The `pos_examples` dict after the `for word, tag in pos_tags` loop. -/
def pos_examples (pts : List (String × String)) : String → List String :=
  pts.foldl stepExamples (fun _ => [])

/-- The "Sample Words by POS Tag" section: for each of
`pos_counts.most_common(10)`, the tag together with
`pos_examples.get(tag_name, [])`. -/
def sampleWordsSection (pts : List (String × String)) :
    List (String × List String) :=
  ((mostCommon (counter (pts.map Prod.snd))).take 10).map
    (fun p => (p.1, pos_examples pts p.1))

/-- Disposition of one button press, as far as the claims need it: the
`isinstance(result, tuple)` error branch, the falsy-text "could not extract"
branch, or the analysis branch with `analyze_pos`'s two results. -/
inductive Outcome where
  | fetchError (msg : String)
  | emptyText
  | analyzed (pts : List (String × String)) (counts : List (String × Nat))
deriving Repr, DecidableEq

/-- The module-level UI block around `fetch_article` / `analyze_pos`: run the
fetch, report a tuple result as a fetch error, report falsy (empty) text as
"could not extract", and otherwise analyze the text. -/
def mainFlow (tokenizer : String → List String)
    (tagAt : List String → Nat → String)
    (response : Except String NodeList) : Outcome :=
  match fetch_article response with
  | .tuple _ e => .fetchError e
  | .str t =>
    if t = "" then .emptyText
    else
      let r := analyze_pos tokenizer tagAt t
      .analyzed r.1 r.2

/-- A sample tokenizer oracle for concrete instantiations: the stripped
input as a single token, or no token at all when the input is blank
(mirroring that `word_tokenize` returns no tokens for whitespace-only
text). -/
def toyTokenizer (s : String) : List String :=
  if strip s = "" then [] else [strip s]

/-- A sample tagger oracle for concrete instantiations: every token is
tagged `NN`. -/
def toyTagger : List String → Nat → String := fun _ _ => "NN"

/-- A document whose only `article` element sits inside a `nav` element
(which the extractor removes), next to an element of class
`article-content` with different text. -/
def cexDoc : NodeList := NodeList.ofList
  [Node.elem "nav" none (NodeList.ofList
    [Node.elem "article" none (NodeList.ofList [Node.text "A"])]),
   Node.elem "div" (some "article-content") (NodeList.ofList [Node.text "B"])]

/-- A document with both a top-level `article` element and an
`article-content` element, each with its own text. -/
def w2doc : NodeList := NodeList.ofList
  [Node.elem "article" none (NodeList.ofList [Node.text "A"]),
   Node.elem "div" (some "article-content") (NodeList.ofList [Node.text "B"])]

/-- A document where no selector matches (a classless `div` and two
paragraphs). -/
def w3doc : NodeList := NodeList.ofList
  [Node.elem "div" none (NodeList.ofList [Node.text "hi"]),
   Node.elem "p" none (NodeList.ofList [Node.text " a "]),
   Node.elem "p" none (NodeList.ofList [Node.text "b"])]

/-- A document where no selector matches and there is no paragraph. -/
def w4doc : NodeList := NodeList.ofList
  [Node.elem "div" none (NodeList.ofList [Node.text "hi"])]

/-! ### Lemmas about `keysInOrder`, `counter` and `mostCommon` -/

/-- Membership in `keysInOrder` is membership in the underlying list. -/
lemma keysInOrder_mem {t : String} : ∀ {l : List String}, t ∈ keysInOrder l ↔ t ∈ l := by
  intro l
  induction l with
  | nil => simp [keysInOrder]
  | cons a l ih =>
    simp only [keysInOrder, List.mem_cons, List.mem_filter, ih, decide_eq_true_eq,
      ne_eq, decide_not]
    by_cases h : t = a <;> simp [h]

/-- `keysInOrder` has no duplicate keys. -/
lemma keysInOrder_nodup : ∀ (l : List String), (keysInOrder l).Nodup := by
  intro l
  induction l with
  | nil => simp [keysInOrder]
  | cons a l ih =>
    refine List.Nodup.cons ?_ (ih.filter _)
    intro hmem
    have := (List.mem_filter.mp hmem).2
    simp at this

/-- The counts recorded for the keys of a list sum to the list's length. -/
lemma sum_counts_keysInOrder : ∀ (l : List String),
    ((keysInOrder l).map (fun t => l.count t)).sum = l.length := by
  intro l
  induction l with
  | nil => simp [keysInOrder]
  | cons a l ih =>
    simp only [keysInOrder, List.map_cons, List.sum_cons]
    have hmap : ((keysInOrder l).filter (fun x => x ≠ a)).map (fun t => (a :: l).count t)
        = ((keysInOrder l).filter (fun x => x ≠ a)).map (fun t => l.count t) := by
      apply List.map_congr_left
      intro x hx
      have hxa : x ≠ a := by
        have h2 := (List.mem_filter.mp hx).2
        simpa using h2
      simp [List.count_cons, hxa]
    rw [hmap, List.count_cons_self]
    by_cases hmem : a ∈ l
    · have hk : a ∈ keysInOrder l := keysInOrder_mem.mpr hmem
      have herase : (keysInOrder l).erase a = (keysInOrder l).filter (fun x => x ≠ a) := by
        simpa using (keysInOrder_nodup l).erase_eq_filter a
      have hperm : List.Perm (keysInOrder l) (a :: (keysInOrder l).erase a) :=
        List.perm_cons_erase hk
      have hsum := List.Perm.sum_eq (List.Perm.map (fun t => l.count t) hperm)
      rw [herase] at hsum
      simp only [List.map_cons, List.sum_cons] at hsum
      rw [ih] at hsum
      simp only [List.length_cons]
      omega
    · have hfix : (keysInOrder l).filter (fun x => x ≠ a) = keysInOrder l := by
        apply List.filter_eq_self.mpr
        intro x hx
        have : x ∈ l := keysInOrder_mem.mp hx
        have : x ≠ a := fun h => hmem (h ▸ this)
        simpa using this
      have hcount : l.count a = 0 := List.count_eq_zero.mpr hmem
      rw [hfix, hcount, ih]
      simp only [List.length_cons]
      omega

/-- Filtering an `orderedInsert` by an exact-count predicate: the inserted
entry lands in front of its own count class (the entries it skips all have
strictly larger counts), and all other count classes are untouched. -/
lemma filter_orderedInsert_count (a : String × Nat) (l : List (String × Nat)) (k : Nat) :
    (l.orderedInsert countGe a).filter (fun x => x.2 = k)
      = if a.2 = k then a :: l.filter (fun x => x.2 = k)
        else l.filter (fun x => x.2 = k) := by
  rw [List.orderedInsert_eq_take_drop, List.filter_append]
  have htake : (l.takeWhile fun b => ¬ countGe a b).filter (fun x => x.2 = k)
      = if a.2 = k then [] else (l.takeWhile fun b => ¬ countGe a b).filter (fun x => x.2 = k) := by
    by_cases hk : a.2 = k
    · rw [if_pos hk, List.filter_eq_nil_iff]
      intro b hb
      have hgt : ¬ countGe a b := by simpa using List.mem_takeWhile_imp hb
      simp only [countGe, Nat.not_le] at hgt
      simp only [decide_eq_true_eq]
      omega
    · rw [if_neg hk]
  by_cases hk : a.2 = k
  · rw [if_pos hk] at htake ⊢
    rw [htake]
    have hdropf : (a :: l.dropWhile fun b => ¬ countGe a b).filter (fun x => x.2 = k)
        = a :: (l.dropWhile fun b => ¬ countGe a b).filter (fun x => x.2 = k) := by
      rw [List.filter_cons]
      simp [hk]
    rw [hdropf]
    have hsplit : l.filter (fun x => x.2 = k)
        = ((l.takeWhile fun b => ¬ countGe a b).filter (fun x => x.2 = k))
          ++ ((l.dropWhile fun b => ¬ countGe a b).filter (fun x => x.2 = k)) := by
      rw [← List.filter_append, List.takeWhile_append_dropWhile]
    rw [hsplit, htake]
    simp
  · rw [if_neg hk]
    have hdropf : (a :: l.dropWhile fun b => ¬ countGe a b).filter (fun x => x.2 = k)
        = (l.dropWhile fun b => ¬ countGe a b).filter (fun x => x.2 = k) := by
      rw [List.filter_cons]
      simp [hk]
    rw [hdropf, ← List.filter_append, List.takeWhile_append_dropWhile]

/-- Stability of `mostCommon`: within each equal-count class, the sorted
output keeps the input's order (the filtered sublists agree). -/
lemma filter_mostCommon (c : List (String × Nat)) (k : Nat) :
    (mostCommon c).filter (fun x => x.2 = k) = c.filter (fun x => x.2 = k) := by
  induction c with
  | nil => rfl
  | cons a c ih =>
    have step : mostCommon (a :: c) = (mostCommon c).orderedInsert countGe a := rfl
    rw [step, filter_orderedInsert_count, List.filter_cons]
    by_cases hk : a.2 = k
    · rw [if_pos hk, ih]
      simp [hk]
    · rw [if_neg hk, ih]
      simp [hk]

/-- The output of `mostCommon` is sorted by descending count. -/
lemma sorted_mostCommon (c : List (String × Nat)) :
    List.Sorted countGe (mostCommon c) :=
  List.sorted_insertionSort countGe c

/-- The keys produced by `keysInOrder` are in first-occurrence order: any key
listed earlier first occurs in the underlying list strictly before any key
listed later. -/
lemma keysInOrder_pairwise_indexOf : ∀ (l : List String),
    (keysInOrder l).Pairwise (fun a b => l.indexOf a < l.indexOf b) := by
  intro l
  induction l with
  | nil => simp [keysInOrder]
  | cons a l ih =>
    rw [keysInOrder]
    constructor
    · intro y hy
      have hya : y ≠ a := by
        have h2 := (List.mem_filter.mp hy).2
        simpa using h2
      rw [List.indexOf_cons_self, List.indexOf_cons_ne _ (Ne.symm hya)]
      exact Nat.succ_pos _
    · have hpair : ((keysInOrder l).filter (fun x => x ≠ a)).Pairwise
          (fun x y => l.indexOf x < l.indexOf y) := ih.filter _
      refine List.Pairwise.imp_of_mem ?_ hpair
      intro x y hx hy hlt
      have hxa : x ≠ a := by
        have h2 := (List.mem_filter.mp hx).2
        simpa using h2
      have hya : y ≠ a := by
        have h2 := (List.mem_filter.mp hy).2
        simpa using h2
      rw [List.indexOf_cons_ne _ (Ne.symm hxa), List.indexOf_cons_ne _ (Ne.symm hya)]
      omega

/-- Generalized invariant of the example-collection loop: starting from any
dict `d`, after processing `pts` the entry for `t` is `d t` extended by the
words of the `t`-tagged pairs of `pts`, in order, truncated so the entry
never exceeds 5 words. -/
lemma pos_examples_foldl : ∀ (pts : List (String × String)) (d : String → List String)
    (t : String), (pts.foldl stepExamples d) t
      = d t ++ (((pts.filter (fun p => p.2 = t)).map Prod.fst).take (5 - (d t).length)) := by
  intro pts
  induction pts with
  | nil => intro d t; simp
  | cons p rest ih =>
    intro d t
    rw [List.foldl_cons, ih]
    by_cases hpt : p.2 = t
    · subst hpt
      by_cases hlen : (d p.2).length < 5
      · have hd : stepExamples d p p.2 = d p.2 ++ [p.1] := by
          simp [stepExamples, hlen]
        rw [hd]
        have hfc : (p :: rest).filter (fun q => q.2 = p.2)
            = p :: rest.filter (fun q => q.2 = p.2) := by
          simp [List.filter_cons]
        rw [hfc, List.map_cons]
        have hlen1 : (d p.2 ++ [p.1]).length = (d p.2).length + 1 := by
          simp
        rw [hlen1]
        have hsplit : 5 - (d p.2).length = (5 - ((d p.2).length + 1)) + 1 := by omega
        rw [hsplit, List.take_succ_cons]
        simp
      · have hd : stepExamples d p p.2 = d p.2 := by
          simp [stepExamples, hlen]
        rw [hd]
        have h0 : 5 - (d p.2).length = 0 := by omega
        rw [h0]
        simp
    · have hd : stepExamples d p t = d t := by
        have hcond : ¬ (t = p.2 ∧ (d p.2).length < 5) := fun hand => hpt hand.1.symm
        simp [stepExamples, hcond]
      rw [hd]
      have hfc : (p :: rest).filter (fun q => q.2 = t) = rest.filter (fun q => q.2 = t) := by
        simp [List.filter_cons, hpt]
      rw [hfc]

/-- The example-word entry of any tag is the first (up to) 5 words carrying
that tag, scanning the tagged sequence in order. -/
lemma pos_examples_eq (pts : List (String × String)) (t : String) :
    pos_examples pts t = ((pts.filter (fun p => p.2 = t)).map Prod.fst).take 5 := by
  have h := pos_examples_foldl pts (fun _ => []) t
  simpa [pos_examples] using h

/-- Sorting does not change emptiness. -/
lemma mostCommon_ne_nil {c : List (String × Nat)} (h : c ≠ []) : mostCommon c ≠ [] := by
  intro h0
  apply h
  have hlen : (mostCommon c).length = c.length := List.length_insertionSort countGe c
  rw [h0] at hlen
  exact List.length_eq_zero.mp hlen.symm

/-- A nonempty tag list yields a nonempty counter. -/
lemma counter_ne_nil {tags : List String} (h : tags ≠ []) : counter tags ≠ [] := by
  cases tags with
  | nil => exact absurd rfl h
  | cons a l => simp [counter, keysInOrder]

/-- Unfolding of `fetch_article` on a successful response: selector phase,
then paragraph fallback when that phase produced the empty string. -/
lemma fetch_article_ok (doc : NodeList) :
    fetch_article (Except.ok doc)
      = PyVal.str (if tryContent (removeKilledList doc) = ""
          then fallbackParagraphs (removeKilledList doc)
          else tryContent (removeKilledList doc)) := rfl

/-- The counts stored in a counter sum to the length of the counted list. -/
lemma counter_sum (tags : List String) :
    ((counter tags).map Prod.snd).sum = tags.length := by
  have h : (counter tags).map Prod.snd = (keysInOrder tags).map (fun t => tags.count t) := by
    simp [counter, List.map_map, Function.comp]
  rw [h]
  exact sum_counts_keysInOrder tags

/-- The keys of a counter are exactly `keysInOrder`. -/
lemma counter_keys (tags : List String) :
    (counter tags).map Prod.fst = keysInOrder tags := by
  simp [counter, List.map_map, Function.comp_def]

/-- Every count stored in a counter is positive. -/
lemma counter_counts_pos (tags : List String) :
    ∀ q ∈ counter tags, 0 < q.2 := by
  intro q hq
  rcases List.mem_map.mp hq with ⟨t, ht, rfl⟩
  have hmem : t ∈ tags := keysInOrder_mem.mp ht
  simpa using List.count_pos_iff.mpr hmem

/-! ### Claim theorems -/

/-- C1: for every input text, the TagFrequency produced by `analyze_pos` is
an exact derivation of its TaggedToken sequence: the counts sum to the number
of (word, tag) pairs, which equals the number of tokens; every tag in the
mapping is the tag of at least one pair; and no tag in the mapping has
count 0. -/
theorem claim_C1_tag_frequency_exact (tokenizer : String → List String)
    (tagAt : List String → Nat → String) (text : String) :
    (((analyze_pos tokenizer tagAt text).2.map Prod.snd).sum
        = (analyze_pos tokenizer tagAt text).1.length)
    ∧ (analyze_pos tokenizer tagAt text).1.length = (tokenizer text).length
    ∧ (∀ t ∈ (analyze_pos tokenizer tagAt text).2.map Prod.fst,
        t ∈ (analyze_pos tokenizer tagAt text).1.map Prod.snd)
    ∧ (∀ q ∈ (analyze_pos tokenizer tagAt text).2, 0 < q.2) := by
  have hr : analyze_pos tokenizer tagAt text
      = (pos_tag tagAt (tokenizer text),
         counter ((pos_tag tagAt (tokenizer text)).map Prod.snd)) := rfl
  rw [hr]
  refine ⟨?_, ?_, ?_, ?_⟩
  · rw [counter_sum, List.length_map]
  · simp [pos_tag]
  · intro t ht
    rw [counter_keys] at ht
    exact keysInOrder_mem.mp ht
  · exact counter_counts_pos _

/-- C1 instantiated at a concrete tokenizer, tagger and text. -/
theorem claim_C1_witness :
    ((analyze_pos toyTokenizer toyTagger "cat").2.map Prod.snd).sum
      = (analyze_pos toyTokenizer toyTagger "cat").1.length :=
  (claim_C1_tag_frequency_exact toyTokenizer toyTagger "cat").1

/-- C6: the ranking of `most_common()` is sorted by descending count, and is
stable: restricted to any fixed count, the ranked entries are exactly the
counter's entries in counter order; and the counter's entries are themselves
in first-occurrence order of the tags in the tagged sequence.  The ranking is
a pure function of the tagged sequence, hence deterministic. -/
theorem claim_C6_ranking_stable (pts : List (String × String)) :
    List.Sorted countGe (mostCommon (counter (pts.map Prod.snd)))
    ∧ (∀ k, (mostCommon (counter (pts.map Prod.snd))).filter (fun x => x.2 = k)
        = (counter (pts.map Prod.snd)).filter (fun x => x.2 = k))
    ∧ (counter (pts.map Prod.snd)).Pairwise
        (fun a b => (pts.map Prod.snd).indexOf a.1 < (pts.map Prod.snd).indexOf b.1) := by
  refine ⟨sorted_mostCommon _, fun k => filter_mostCommon _ k, ?_⟩
  have h := keysInOrder_pairwise_indexOf (pts.map Prod.snd)
  rw [counter]
  rw [List.pairwise_map]
  simpa using h

/-- C6 instantiated at a concrete tagged sequence. -/
theorem claim_C6_witness :
    List.Sorted countGe (mostCommon (counter ([("the", "DT"), ("cat", "NN")].map Prod.snd))) :=
  (claim_C6_ranking_stable [("the", "DT"), ("cat", "NN")]).1

/-- C7: for every tag, the example-word list is the first 5 occurrences of
that tag in sequence order (duplicated words at different positions both
count); the sample-words section displays exactly these lists for the
top-10 ranked tags. -/
theorem claim_C7_example_words (pts : List (String × String)) :
    (∀ t, pos_examples pts t = ((pts.filter (fun p => p.2 = t)).map Prod.fst).take 5)
    ∧ sampleWordsSection pts
        = ((mostCommon (counter (pts.map Prod.snd))).take 10).map
            (fun p => (p.1, ((pts.filter (fun q => q.2 = p.1)).map Prod.fst).take 5)) := by
  refine ⟨pos_examples_eq pts, ?_⟩
  rw [sampleWordsSection]
  apply List.map_congr_left
  intro p _
  rw [pos_examples_eq]

/-- C7 instantiated at a concrete tagged sequence with 6 occurrences of a
tag, one word repeated: the example list keeps the first 5 occurrences,
duplicates included. -/
theorem claim_C7_witness :
    pos_examples [("a", "NN"), ("b", "NN"), ("a", "NN"), ("c", "VB"), ("d", "NN"),
        ("e", "NN"), ("f", "NN")] "NN"
      = ["a", "b", "a", "d", "e"] := by
  rw [(claim_C7_example_words _).1 "NN"]
  decide

/-- C8: `analyze_pos` is deterministic and stateless; with the same external
tokenizer and tagger oracles, two invocations on identical text return
identical tagged sequences and identical frequency mappings. -/
theorem claim_C8_deterministic (tokenizer : String → List String)
    (tagAt : List String → Nat → String) (text1 text2 : String)
    (h : text1 = text2) :
    analyze_pos tokenizer tagAt text1 = analyze_pos tokenizer tagAt text2
    ∧ (analyze_pos tokenizer tagAt text1).1 = (analyze_pos tokenizer tagAt text2).1
    ∧ (analyze_pos tokenizer tagAt text1).2 = (analyze_pos tokenizer tagAt text2).2 := by
  rw [h]
  exact ⟨rfl, rfl, rfl⟩

/-- C8 instantiated at a concrete text. -/
theorem claim_C8_witness :
    analyze_pos toyTokenizer toyTagger "The cat" = analyze_pos toyTokenizer toyTagger "The cat" :=
  (claim_C8_deterministic toyTokenizer toyTagger "The cat" "The cat" rfl).1

/-- C9: the "Most Common Tag" metric `most_common(1)[0][0]` has the implicit
precondition that tokenization produced at least one token: when the
tokenizer returns no tokens (as for whitespace-only text, which passes the
caller's truthiness check), the indexing faults (modelled as `none`); when at
least one token exists, the metric is the first-ranked tag. -/
theorem claim_C9_metric_precondition (tokenizer : String → List String)
    (tagAt : List String → Nat → String) (text : String) :
    (tokenizer text = [] →
      mostCommonTagMetric (analyze_pos tokenizer tagAt text).2 = none)
    ∧ (tokenizer text ≠ [] →
      ∃ p rest, mostCommon (counter ((analyze_pos tokenizer tagAt text).1.map Prod.snd))
          = p :: rest
        ∧ mostCommonTagMetric (analyze_pos tokenizer tagAt text).2 = some p.1) := by
  constructor
  · intro h0
    simp [analyze_pos, pos_tag, h0, counter, keysInOrder, mostCommon, mostCommonTagMetric]
  · intro hne
    have h1 : (analyze_pos tokenizer tagAt text).1 = pos_tag tagAt (tokenizer text) := rfl
    have h2 : (analyze_pos tokenizer tagAt text).2
        = counter ((analyze_pos tokenizer tagAt text).1.map Prod.snd) := rfl
    have hlen : (pos_tag tagAt (tokenizer text)).length = (tokenizer text).length := by
      simp [pos_tag]
    have hpts : (analyze_pos tokenizer tagAt text).1 ≠ [] := by
      rw [h1]
      intro hnil
      apply hne
      have := congrArg List.length hnil
      rw [hlen] at this
      exact List.length_eq_zero.mp this
    have htags : (analyze_pos tokenizer tagAt text).1.map Prod.snd ≠ [] := by
      intro hnil
      apply hpts
      have := congrArg List.length hnil
      simpa using List.length_eq_zero.mp (by simpa using this)
    have hc : counter ((analyze_pos tokenizer tagAt text).1.map Prod.snd) ≠ [] :=
      counter_ne_nil htags
    have hm : mostCommon (counter ((analyze_pos tokenizer tagAt text).1.map Prod.snd)) ≠ [] :=
      mostCommon_ne_nil hc
    cases hcase : mostCommon (counter ((analyze_pos tokenizer tagAt text).1.map Prod.snd)) with
    | nil => exact absurd hcase hm
    | cons p rest =>
      refine ⟨p, rest, rfl, ?_⟩
      rw [mostCommonTagMetric, h2, hcase]

/-- C9 instantiated: the whitespace-only text `" "` is truthy (non-empty)
yet tokenizes to no tokens, and the metric faults; the text `"cat"` has a
token and the metric yields a tag. -/
theorem claim_C9_witness :
    (" " : String) ≠ ""
    ∧ mostCommonTagMetric (analyze_pos toyTokenizer toyTagger " ").2 = none
    ∧ (∃ p rest, mostCommon (counter ((analyze_pos toyTokenizer toyTagger "cat").1.map Prod.snd))
        = p :: rest
      ∧ mostCommonTagMetric (analyze_pos toyTokenizer toyTagger "cat").2 = some p.1) :=
  ⟨by decide,
   (claim_C9_metric_precondition toyTokenizer toyTagger " ").1 (by decide),
   (claim_C9_metric_precondition toyTokenizer toyTagger "cat").2 (by decide)⟩

/-- C5: every fetch exception with a non-empty message yields the failure
pair `(None, str(e))` with that non-empty description, the caller reports it
as a fetch error, and the analyzer is never invoked on that request. -/
theorem claim_C5_fetch_failure (e : String) (tokenizer : String → List String)
    (tagAt : List String → Nat → String) (he : e ≠ "") :
    ∃ msg, fetch_article (Except.error e) = PyVal.tuple none msg ∧ msg ≠ ""
      ∧ mainFlow tokenizer tagAt (Except.error e) = Outcome.fetchError msg
      ∧ ∀ pts counts,
          mainFlow tokenizer tagAt (Except.error e) ≠ Outcome.analyzed pts counts := by
  refine ⟨e, rfl, he, rfl, ?_⟩
  intro pts counts h
  have h2 : Outcome.fetchError e = Outcome.analyzed pts counts := h
  exact Outcome.noConfusion h2

/-- C5 instantiated at a concrete HTTP-404 style exception message. -/
theorem claim_C5_witness :
    ∃ msg, fetch_article (Except.error "404 Client Error") = PyVal.tuple none msg ∧ msg ≠ ""
      ∧ mainFlow toyTokenizer toyTagger (Except.error "404 Client Error")
          = Outcome.fetchError msg
      ∧ ∀ pts counts,
          mainFlow toyTokenizer toyTagger (Except.error "404 Client Error")
            ≠ Outcome.analyzed pts counts :=
  claim_C5_fetch_failure "404 Client Error" toyTokenizer toyTagger (by decide)

/-- C4: when no selector matches and there is no paragraph, extraction
returns the empty string as a successful string result (not the failure
tuple), and the caller's truthiness check — not the extractor — routes it to
the "could not extract" branch. -/
theorem claim_C4_empty_success (doc : NodeList)
    (h1 : firstMatch selList (removeKilledList doc) = none)
    (h2 : findPsList (removeKilledList doc) = []) :
    fetch_article (Except.ok doc) = PyVal.str ""
    ∧ isTuple (fetch_article (Except.ok doc)) = false
    ∧ ∀ tokenizer tagAt, mainFlow tokenizer tagAt (Except.ok doc) = Outcome.emptyText := by
  have htc : tryContent (removeKilledList doc) = "" := by
    rw [tryContent, h1]
  have hfb : fallbackParagraphs (removeKilledList doc) = "" := by
    rw [fallbackParagraphs, h2]
    rfl
  have hfa : fetch_article (Except.ok doc) = PyVal.str "" := by
    rw [fetch_article_ok, htc, hfb]
    simp
  refine ⟨hfa, by rw [hfa]; rfl, ?_⟩
  intro tokenizer tagAt
  rw [mainFlow, hfa]
  rfl

/-- C4 instantiated at a selector-free, paragraph-free document. -/
theorem claim_C4_witness :
    fetch_article (Except.ok w4doc) = PyVal.str ""
    ∧ isTuple (fetch_article (Except.ok w4doc)) = false
    ∧ mainFlow toyTokenizer toyTagger (Except.ok w4doc) = Outcome.emptyText := by
  have h := claim_C4_empty_success w4doc rfl rfl
  exact ⟨h.1, h.2.1, h.2.2 toyTokenizer toyTagger⟩

/-- C3: when no selector matches, or the matched element yields empty text,
the returned result is the paragraph fallback: every paragraph's stripped
text, joined with single spaces. -/
theorem claim_C3_paragraph_fallback (doc : NodeList)
    (h : firstMatch selList (removeKilledList doc) = none
      ∨ ∃ n, firstMatch selList (removeKilledList doc) = some n ∧ getTextSepStrip n = "") :
    fetch_article (Except.ok doc)
      = PyVal.str (String.intercalate " "
          ((findPsList (removeKilledList doc)).map getTextStrip)) := by
  have htc : tryContent (removeKilledList doc) = "" := by
    rcases h with h | ⟨n, hn, hempty⟩
    · rw [tryContent, h]
    · rw [tryContent, hn]
      exact hempty
  rw [fetch_article_ok, htc]
  rw [if_pos rfl, fallbackParagraphs]

/-- C3 instantiated at a document with no matching selector and two
paragraphs whose stripped texts are joined with one space. -/
theorem claim_C3_witness :
    fetch_article (Except.ok w3doc)
      = PyVal.str (String.intercalate " "
          ((findPsList (removeKilledList w3doc)).map getTextStrip))
    ∧ fetch_article (Except.ok w3doc) = PyVal.str "a b" :=
  ⟨claim_C3_paragraph_fallback w3doc (Or.inl rfl), rfl⟩

/-- C10: the return value of `fetch_article` discriminates success from
failure by shape: the non-exceptional path returns a string (possibly
empty), the exceptional path returns exactly the pair `(None, message)`, and
the caller's tuple test accepts every failure and rejects every success. -/
theorem claim_C10_shape_discrimination (resp : Except String NodeList) :
    (isTuple (fetch_article resp) = true ↔ ∃ e, resp = Except.error e)
    ∧ (∀ e, resp = Except.error e → fetch_article resp = PyVal.tuple none e)
    ∧ (∀ doc, resp = Except.ok doc → ∃ s, fetch_article resp = PyVal.str s) := by
  cases resp with
  | error e =>
    refine ⟨⟨fun _ => ⟨e, rfl⟩, fun _ => rfl⟩, ?_, ?_⟩
    · intro e2 he
      cases he
      rfl
    · intro doc h
      cases h
  | ok doc =>
    refine ⟨⟨?_, ?_⟩, ?_, ?_⟩
    · intro hbad
      rw [fetch_article_ok] at hbad
      simp [isTuple] at hbad
    · rintro ⟨e, he⟩
      cases he
    · intro e he
      cases he
    · intro d hd
      cases hd
      exact ⟨_, fetch_article_ok doc⟩

/-- C10 instantiated at one failing and one succeeding response. -/
theorem claim_C10_witness :
    isTuple (fetch_article (Except.error "boom")) = true
    ∧ fetch_article (Except.error "boom") = PyVal.tuple none "boom"
    ∧ ∃ s, fetch_article (Except.ok w3doc) = PyVal.str s :=
  ⟨((claim_C10_shape_discrimination (Except.error "boom")).1).mpr ⟨"boom", rfl⟩,
   (claim_C10_shape_discrimination (Except.error "boom")).2.1 "boom" rfl,
   (claim_C10_shape_discrimination (Except.ok w3doc)).2.2 w3doc rfl⟩

/-- C2 counterexample: `cexDoc` contains both an `article` element (with text
`"A"`, inside a `nav`) and an element with class `article-content` (with text
`"B"`), yet `fetch_article` extracts `"B"`, because the `nav` subtree —
`article` element included — is removed before the selectors run.  So, as
stated over all HTML documents, the `article` element's text is not always
the one extracted. -/
theorem claim_C2_counterexample :
    selectOneList (Sel.tagIs "article") cexDoc
        = some (Node.elem "article" none (NodeList.cons (Node.text "A") NodeList.nil))
    ∧ getTextSepStrip
        (Node.elem "article" none (NodeList.cons (Node.text "A") NodeList.nil)) = "A"
    ∧ fetch_article (Except.ok cexDoc) = PyVal.str "B"
    ∧ ("B" : String) ≠ "A" :=
  ⟨rfl, rfl, rfl, by decide⟩

/-- C2 (amended): for every document in which, after the removal of
`script/style/nav/header/footer` subtrees, an `article` element is present
(in particular when both an `article` element and a class `article-content`
element survive the removal), the selector loop stops at the first `article`
element: the class selectors are never consulted, the selector phase yields
that element's text, and whenever this text is non-empty it is the returned
result.  In general, as soon as any selector yields an element, no later
selector is tried. -/
theorem claim_C2_priority_order :
    (∀ (doc : NodeList) (n : Node),
      selectOneList (Sel.tagIs "article") (removeKilledList doc) = some n →
        firstMatch selList (removeKilledList doc) = some n
        ∧ tryContent (removeKilledList doc) = getTextSepStrip n
        ∧ (getTextSepStrip n ≠ "" →
            fetch_article (Except.ok doc) = PyVal.str (getTextSepStrip n)))
    ∧ (∀ (s : Sel) (ss : List Sel) (d : NodeList) (m : Node),
        selectOneList s d = some m → firstMatch (s :: ss) d = some m) := by
  constructor
  · intro doc n h
    have hfm : firstMatch selList (removeKilledList doc) = some n := by
      rw [selList, firstMatch, h]
    have htc : tryContent (removeKilledList doc) = getTextSepStrip n := by
      rw [tryContent, hfm]
    refine ⟨hfm, htc, ?_⟩
    intro hne
    rw [fetch_article_ok, htc, if_neg hne]
  · intro s ss d m h
    rw [firstMatch, h]

/-- C2 (amended) instantiated: in `w2doc` both an `article` element and an
`article-content` element survive removal, and the `article` element's text
`"A"` is the extracted result. -/
theorem claim_C2_witness :
    firstMatch selList (removeKilledList w2doc)
        = some (Node.elem "article" none (NodeList.cons (Node.text "A") NodeList.nil))
    ∧ fetch_article (Except.ok w2doc) = PyVal.str "A" := by
  have h := claim_C2_priority_order.1 w2doc
    (Node.elem "article" none (NodeList.cons (Node.text "A") NodeList.nil)) rfl
  exact ⟨h.1, h.2.2 (by decide)⟩
